import Mathlib

/-!
Verification development for the crypto_portfolio_manager repository.

The repository ships a React dashboard (under src/dashboard) together with design
documents for a risk-adaptive trading engine (StrategyEngine, PortfolioLedger,
CrashProtectionStateMachine, OrderExecutor, ...).  The engine itself is not present
in the source tree, only its specification; the corresponding definitions below are
therefore modelled from the spec and marked as such.  The dashboard components are
embedded from the JSX sources.
-/

namespace CryptoPM

/-- Modelled from the spec: the AssetClass enum with variants LongTermHold,
HighRiskVolatile and Stable; the symbol-to-class mapping is fixed at runtime.
The trading-engine sources are missing from the repository. -/
inductive AssetClass
  | LongTermHold
  | HighRiskVolatile
  | Stable
deriving DecidableEq, Repr

/-- Modelled from the spec: side of a TradeIntent (buy, sell or hold). -/
inductive Side
  | buy
  | sell
  | hold
deriving DecidableEq, Repr

/-- Modelled from the spec: reason codes carried by a TradeIntent. -/
inductive ReasonCode
  | DCA
  | takeProfit
  | crashDeleverage
  | coldStorageTrigger
deriving DecidableEq, Repr

/-- Modelled from the spec: a transient TradeIntent produced by the StrategyEngine. -/
structure TradeIntent where
  symbol : String
  side : Side
  quantity : ℚ
  reason : ReasonCode
deriving DecidableEq, Repr

/-- Modelled from the spec: the MarketRegime enum, also used as the
crash-protection tier (Normal, Correction, Crash, SevereCrash). -/
inductive MarketRegime
  | Normal
  | Correction
  | Crash
  | SevereCrash
deriving DecidableEq, Repr

/-- Numeric rank of a tier, with SevereCrash the highest. -/
def MarketRegime.rank : MarketRegime → Nat
  | .Normal => 0
  | .Correction => 1
  | .Crash => 2
  | .SevereCrash => 3

/-- Whether a tier is one of the two crash tiers. -/
def MarketRegime.isCrashTier : MarketRegime → Bool
  | .Crash => true
  | .SevereCrash => true
  | _ => false

/-- Modelled from the spec: the configured drawdown lower bound of each tier
(for example 0%, 5%, 10%, 20%). -/
structure TierBounds where
  normal : ℚ
  correction : ℚ
  crash : ℚ
  severe : ℚ
deriving DecidableEq, Repr

/-- The drawdown lower bound attached to a given tier. -/
def TierBounds.bound (b : TierBounds) : MarketRegime → ℚ
  | .Normal => b.normal
  | .Correction => b.correction
  | .Crash => b.crash
  | .SevereCrash => b.severe

/-- Modelled from the spec: select the highest tier whose lower bound is ≤ the
current drawdown. -/
def tierOf (b : TierBounds) (drawdown : ℚ) : MarketRegime :=
  if b.severe ≤ drawdown then MarketRegime.SevereCrash
  else if b.crash ≤ drawdown then MarketRegime.Crash
  else if b.correction ≤ drawdown then MarketRegime.Correction
  else MarketRegime.Normal

/-- Modelled from the spec: drawdown = (rollingPeak - currentPrice) / rollingPeak. -/
def drawdownOf (peak price : ℚ) : ℚ := (peak - price) / peak

/-- Modelled from the spec: a ledger position (symbol, quantity held, average cost
basis, asset class). -/
structure Position where
  symbol : String
  quantity : ℚ
  costBasis : ℚ
  assetClass : AssetClass
deriving DecidableEq, Repr

/-- Modelled from the spec: the deleverage batch emitted on entering a crash tier —
one full-size sell intent per HighRiskVolatile position. -/
def deleverageBatch (positions : List Position) : List TradeIntent :=
  (positions.filter fun p => decide (p.assetClass = AssetClass.HighRiskVolatile)).map
    fun p => { symbol := p.symbol, side := Side.sell, quantity := p.quantity,
               reason := ReasonCode.crashDeleverage }

/-- Modelled from the spec: the CrashProtectionStateMachine state — a rolling peak
of the reference asset price, the current tier, and a last-emitted-tier field used
to make the deleverage batch one-shot per tier-entry event. -/
structure CrashProtState where
  rollingPeak : ℚ
  tier : MarketRegime
  lastEmittedTier : MarketRegime
deriving DecidableEq, Repr

/-- Modelled from the spec: one price update of the CrashProtectionStateMachine.
The rolling peak absorbs the new price, the tier is recomputed from scratch from
the drawdown, and entering Crash or SevereCrash (a tier different from the one
recorded by the previous tick) emits the one-shot deleverage batch. -/
def cpsmTick (b : TierBounds) (positions : List Position) (s : CrashProtState)
    (price : ℚ) : CrashProtState × List TradeIntent :=
  let peak := max s.rollingPeak price
  let tier := tierOf b (drawdownOf peak price)
  let batch :=
    if tier.isCrashTier = true ∧ tier ≠ s.lastEmittedTier then deleverageBatch positions
    else []
  ({ rollingPeak := peak, tier := tier, lastEmittedTier := tier }, batch)

/-- The tier trace produced by replaying a sequence of price ticks. -/
def tierTrace (b : TierBounds) (positions : List Position) (s : CrashProtState) :
    List ℚ → List MarketRegime
  | [] => []
  | price :: rest =>
    let s' := (cpsmTick b positions s price).1
    s'.tier :: tierTrace b positions s' rest

/-- Modelled from the spec: the MarketStateMonitor tick over a possibly stale feed.
A missing price (`none`) freezes the whole crash-protection state at its last known
value instead of defaulting to Normal. -/
def monitorTick (b : TierBounds) (positions : List Position) (s : CrashProtState)
    (feed : Option ℚ) : CrashProtState × List TradeIntent :=
  match feed with
  | none => (s, [])
  | some price => cpsmTick b positions s price

/-- Folding the monitor over a sequence of feed observations. -/
def monitorRun (b : TierBounds) (positions : List Position) (s : CrashProtState) :
    List (Option ℚ) → CrashProtState
  | [] => s
  | f :: rest => monitorRun b positions (monitorTick b positions s f).1 rest

section TierLemmas

/-- Monotone tier bounds starting at zero, as in the spec's 0%, 5%, 10%, 20%. -/
def TierBounds.Monotone (b : TierBounds) : Prop :=
  b.normal = 0 ∧ b.normal ≤ b.correction ∧ b.correction ≤ b.crash ∧ b.crash ≤ b.severe

theorem tierOf_bound_le (b : TierBounds) (d : ℚ) (hm : b.Monotone) (hd : 0 ≤ d) :
    b.bound (tierOf b d) ≤ d := by
  obtain ⟨h0, _, _, _⟩ := hm
  unfold tierOf
  split
  · assumption
  · split
    · assumption
    · split
      · assumption
      · simpa [TierBounds.bound, h0] using hd

theorem tierOf_maximal (b : TierBounds) (d : ℚ) (hm : b.Monotone)
    (t : MarketRegime) (ht : b.bound t ≤ d) : t.rank ≤ (tierOf b d).rank := by
  obtain ⟨_, h1, h2, h3⟩ := hm
  cases t with
  | Normal => exact Nat.zero_le _
  | Correction =>
    simp only [TierBounds.bound] at ht
    by_cases hs : b.severe ≤ d
    · simp [tierOf, hs, MarketRegime.rank]
    · by_cases hcr : b.crash ≤ d
      · simp [tierOf, hs, hcr, MarketRegime.rank]
      · simp [tierOf, hs, hcr, ht, MarketRegime.rank]
  | Crash =>
    simp only [TierBounds.bound] at ht
    by_cases hs : b.severe ≤ d
    · simp [tierOf, hs, MarketRegime.rank]
    · simp [tierOf, hs, ht, MarketRegime.rank]
  | SevereCrash =>
    simp only [TierBounds.bound] at ht
    simp [tierOf, ht, MarketRegime.rank]

theorem tierTrace_peak_pure (b : TierBounds) (positions : List Position)
    (prices : List ℚ) (s₁ s₂ : CrashProtState)
    (hpk : s₁.rollingPeak = s₂.rollingPeak) :
    tierTrace b positions s₁ prices = tierTrace b positions s₂ prices := by
  cases prices with
  | nil => rfl
  | cons p rest =>
    simp only [tierTrace, cpsmTick, hpk]

end TierLemmas

/-- Example tier bounds 0%, 5%, 10%, 20% from the spec. -/
def bEx : TierBounds := ⟨0, 5/100, 10/100, 20/100⟩

/-- Example HighRiskVolatile position of quantity 10 from the spec scenario. -/
def posEx : Position := ⟨"MEME", 10, 1, AssetClass.HighRiskVolatile⟩

/-- Example crash-protection state: rolling peak 100, currently Normal. -/
def sEx : CrashProtState := ⟨100, MarketRegime.Normal, MarketRegime.Normal⟩

/-- Claim C2: on a price update the CrashProtectionStateMachine tier equals the
highest tier among Normal, Correction, Crash, SevereCrash whose configured drawdown
lower bound is ≤ (p - c) / p, and the tier trace of a replay depends only on the
rolling peak and the tick sequence — no other hidden state. -/
theorem C2_tier_highest_and_pure (b : TierBounds) (positions : List Position)
    (p c : ℚ) (hm : b.Monotone) (hp : 0 < p) (hc : c ≤ p) :
    (∀ t0 t1 : MarketRegime,
        (cpsmTick b positions ⟨p, t0, t1⟩ c).1.tier = tierOf b (drawdownOf p c))
    ∧ b.bound (tierOf b (drawdownOf p c)) ≤ drawdownOf p c
    ∧ (∀ t : MarketRegime, b.bound t ≤ drawdownOf p c →
        t.rank ≤ (tierOf b (drawdownOf p c)).rank)
    ∧ ∀ (s₁ s₂ : CrashProtState) (prices : List ℚ),
        s₁.rollingPeak = s₂.rollingPeak →
        tierTrace b positions s₁ prices = tierTrace b positions s₂ prices := by
  have hmax : max p c = p := max_eq_left hc
  have hd : 0 ≤ drawdownOf p c := by
    unfold drawdownOf
    exact div_nonneg (by linarith) (le_of_lt hp)
  refine ⟨?_, tierOf_bound_le b _ hm hd, fun t ht => tierOf_maximal b _ hm t ht, ?_⟩
  · intro t0 t1
    simp [cpsmTick, hmax]
  · intro s₁ s₂ prices h
    exact tierTrace_peak_pure b positions prices s₁ s₂ h

/-- Witness for C2 at the spec's example: bounds 0/5/10/20%, peak 100, price 88. -/
theorem C2_tier_highest_and_pure_witness :
    bEx.Monotone ∧ (0:ℚ) < 100 ∧ (88:ℚ) ≤ 100 ∧
    TierBounds.bound bEx (tierOf bEx (drawdownOf 100 88)) ≤ drawdownOf 100 88 :=
  ⟨by constructor <;> norm_num [bEx], by norm_num, by norm_num,
   (C2_tier_highest_and_pure bEx [] 100 88
      (by constructor <;> norm_num [bEx]) (by norm_num) (by norm_num)).2.1⟩

/-- Claim C5: a deleverage batch covering all HighRiskVolatile positions is emitted
exactly at a tick that enters Crash or SevereCrash (a crash tier differing from the
last recorded tier), and a subsequent tick that re-evaluates to the same tier emits
no further batch. -/
theorem C5_one_shot_deleverage (b : TierBounds) (positions : List Position)
    (s : CrashProtState) (price : ℚ) :
    ((cpsmTick b positions s price).1.tier.isCrashTier = true →
      (cpsmTick b positions s price).1.tier ≠ s.lastEmittedTier →
      (cpsmTick b positions s price).2 = deleverageBatch positions)
    ∧ ((cpsmTick b positions s price).2 ≠ [] →
      (cpsmTick b positions s price).1.tier.isCrashTier = true
        ∧ (cpsmTick b positions s price).1.tier ≠ s.lastEmittedTier)
    ∧ ∀ price₂ : ℚ,
        (cpsmTick b positions (cpsmTick b positions s price).1 price₂).1.tier
          = (cpsmTick b positions s price).1.tier →
        (cpsmTick b positions (cpsmTick b positions s price).1 price₂).2 = [] := by
  refine ⟨?_, ?_, ?_⟩
  · intro h1 h2
    simp only [cpsmTick] at h1 h2 ⊢
    exact if_pos ⟨h1, h2⟩
  · intro hne
    simp only [cpsmTick] at hne ⊢
    by_cases hc :
        (tierOf b (drawdownOf (max s.rollingPeak price) price)).isCrashTier = true
        ∧ tierOf b (drawdownOf (max s.rollingPeak price) price) ≠ s.lastEmittedTier
    · exact hc
    · rw [if_neg hc] at hne
      exact absurd rfl hne
  · intro price₂ heq
    simp only [cpsmTick] at heq ⊢
    rw [if_neg]
    intro h
    exact h.2 heq

/-- Witness for C5 at the spec's end-to-end scenario: drawdown reaches 12% (Crash)
with an open HighRiskVolatile position of quantity 10; one full-size deleverage sell
is emitted and the next tick in the same tier emits nothing. -/
theorem C5_one_shot_deleverage_witness :
    (cpsmTick bEx [posEx] sEx 88).1.tier.isCrashTier = true
    ∧ (cpsmTick bEx [posEx] sEx 88).1.tier ≠ sEx.lastEmittedTier
    ∧ (cpsmTick bEx [posEx] sEx 88).2 = deleverageBatch [posEx]
    ∧ (cpsmTick bEx [posEx] (cpsmTick bEx [posEx] sEx 88).1 88).2 = [] := by
  have h1 : (cpsmTick bEx [posEx] sEx 88).1.tier.isCrashTier = true := by
    norm_num [cpsmTick, drawdownOf, tierOf, bEx, sEx, max_def, MarketRegime.isCrashTier]
  have h2 : (cpsmTick bEx [posEx] sEx 88).1.tier ≠ sEx.lastEmittedTier := by
    norm_num [cpsmTick, drawdownOf, tierOf, bEx, sEx, max_def]
    decide
  have heq : (cpsmTick bEx [posEx] (cpsmTick bEx [posEx] sEx 88).1 88).1.tier
      = (cpsmTick bEx [posEx] sEx 88).1.tier := by
    norm_num [cpsmTick, drawdownOf, tierOf, bEx, sEx, max_def]
  exact ⟨h1, h2, (C5_one_shot_deleverage bEx [posEx] sEx 88).1 h1 h2,
    (C5_one_shot_deleverage bEx [posEx] sEx 88).2.2 88 heq⟩

/-- Claim C7: if the price feed is stale or missing, the crash-protection tier keeps
its last known value for the whole outage and is never reset to Normal by default. -/
theorem C7_outage_freezes_tier (b : TierBounds) (positions : List Position)
    (s : CrashProtState) (n : Nat) :
    (monitorTick b positions s none).1.tier = s.tier
    ∧ monitorRun b positions s (List.replicate n none) = s
    ∧ (s.tier ≠ MarketRegime.Normal →
        (monitorRun b positions s (List.replicate n none)).tier ≠ MarketRegime.Normal) := by
  have hrun : monitorRun b positions s (List.replicate n none) = s := by
    induction n with
    | zero => rfl
    | succ k ih => simpa [List.replicate_succ, monitorRun, monitorTick] using ih
  exact ⟨rfl, hrun, fun h => by rw [hrun]; exact h⟩

/-- Witness for C7: a three-tick outage starting from Crash keeps the tier Crash. -/
theorem C7_outage_freezes_tier_witness :
    (⟨100, MarketRegime.Crash, MarketRegime.Crash⟩ : CrashProtState).tier
        ≠ MarketRegime.Normal
    ∧ (monitorRun bEx [] ⟨100, MarketRegime.Crash, MarketRegime.Crash⟩
        (List.replicate 3 none)).tier ≠ MarketRegime.Normal :=
  ⟨by decide,
   (C7_outage_freezes_tier bEx [] ⟨100, MarketRegime.Crash, MarketRegime.Crash⟩ 3).2.2
     (by decide)⟩

section Ledger

/-- Modelled from the spec: the PortfolioLedger's per-asset available balances,
kept as an association list from asset symbol to balance. -/
structure Ledger where
  balances : List (String × ℚ)
deriving DecidableEq, Repr

/-- First-match lookup of a balance; an unknown asset has balance 0. -/
def lookupBalance : List (String × ℚ) → String → ℚ
  | [], _ => 0
  | e :: rest, a => if e.1 = a then e.2 else lookupBalance rest a

/-- Replace the first entry for an asset (or append a new entry). -/
def updateBalance : List (String × ℚ) → String → ℚ → List (String × ℚ)
  | [], a, q => [(a, q)]
  | e :: rest, a, q => if e.1 = a then (a, q) :: rest else e :: updateBalance rest a q

/-- Modelled from the spec: getAvailableBalance of the PortfolioLedger. -/
def Ledger.getAvailableBalance (l : Ledger) (asset : String) : ℚ :=
  lookupBalance l.balances asset

/-- Modelled from the spec: a fill reconciled into the ledger, changing one asset's
available balance by a signed delta. -/
structure Fill where
  asset : String
  delta : ℚ
deriving DecidableEq, Repr

/-- Modelled from the spec: PortfolioLedger.applyFill. A fill that would drive the
asset's available balance negative is a fatal programming error: it is rejected and
not applied. -/
def Ledger.applyFill (l : Ledger) (f : Fill) : Except String Ledger :=
  if l.getAvailableBalance f.asset + f.delta < 0 then
    Except.error "fatal: fill would drive available balance negative"
  else
    Except.ok ⟨updateBalance l.balances f.asset (l.getAvailableBalance f.asset + f.delta)⟩

/-- Folding applyFill over a sequence of fills, halting on the first fatal error. -/
def Ledger.applyFills (l : Ledger) : List Fill → Except String Ledger
  | [] => Except.ok l
  | f :: rest =>
    match l.applyFill f with
    | Except.error e => Except.error e
    | Except.ok l' => l'.applyFills rest

/-- All recorded balance entries are non-negative. -/
def Ledger.EntriesNonNeg (l : Ledger) : Prop :=
  ∀ e ∈ l.balances, (0:ℚ) ≤ e.2

instance (l : Ledger) : Decidable l.EntriesNonNeg := by
  unfold Ledger.EntriesNonNeg
  infer_instance

theorem lookupBalance_nonneg (bs : List (String × ℚ)) (a : String)
    (h : ∀ e ∈ bs, (0:ℚ) ≤ e.2) : 0 ≤ lookupBalance bs a := by
  induction bs with
  | nil => simp [lookupBalance]
  | cons e rest ih =>
    simp only [lookupBalance]
    split
    · exact h e (List.mem_cons_self e rest)
    · exact ih fun x hx => h x (List.mem_cons_of_mem e hx)

theorem mem_updateBalance (bs : List (String × ℚ)) (a : String) (q : ℚ) :
    ∀ e ∈ updateBalance bs a q, e = (a, q) ∨ e ∈ bs := by
  induction bs with
  | nil => intro e he; simp [updateBalance] at he; exact Or.inl he
  | cons x rest ih =>
    intro e he
    simp only [updateBalance] at he
    split at he
    · rcases List.mem_cons.mp he with h | h
      · exact Or.inl h
      · exact Or.inr (List.mem_cons_of_mem x h)
    · rcases List.mem_cons.mp he with h | h
      · exact Or.inr (h ▸ List.mem_cons_self x rest)
      · rcases ih e h with h' | h'
        · exact Or.inl h'
        · exact Or.inr (List.mem_cons_of_mem x h')

theorem applyFill_ok_nonneg (l l' : Ledger) (f : Fill) (hl : l.EntriesNonNeg)
    (h : l.applyFill f = Except.ok l') : l'.EntriesNonNeg := by
  unfold Ledger.applyFill at h
  split at h
  · exact absurd h (by simp)
  · rename_i hge
    push_neg at hge
    cases h
    intro e he
    rcases mem_updateBalance l.balances f.asset
        (l.getAvailableBalance f.asset + f.delta) e he with h' | h'
    · rw [h']
      exact hge
    · exact hl e h'

theorem applyFills_ok_nonneg (fills : List Fill) :
    ∀ (l l' : Ledger), l.EntriesNonNeg → l.applyFills fills = Except.ok l' →
      l'.EntriesNonNeg := by
  induction fills with
  | nil =>
    intro l l' hl h
    simp only [Ledger.applyFills] at h
    cases h
    exact hl
  | cons f rest ih =>
    intro l l' hl h
    simp only [Ledger.applyFills] at h
    cases hf : l.applyFill f with
    | error e => rw [hf] at h; exact absurd h (by simp)
    | ok m =>
      rw [hf] at h
      exact ih m l' (applyFill_ok_nonneg l m f hl hf) h

/-- Claim C3: starting from non-negative balances, every asset's available balance
stays non-negative across any sequence of applied fills, and a fill that would make
a balance negative is a fatal error that is never applied. -/
theorem C3_balance_never_negative (l l' : Ledger) (fills : List Fill)
    (hl : l.EntriesNonNeg) (h : l.applyFills fills = Except.ok l') :
    (∀ asset : String, 0 ≤ l'.getAvailableBalance asset)
    ∧ ∀ (m m' : Ledger) (f : Fill),
        m.getAvailableBalance f.asset + f.delta < 0 →
        m.applyFill f ≠ Except.ok m' := by
  constructor
  · intro asset
    exact lookupBalance_nonneg l'.balances asset
      (applyFills_ok_nonneg fills l l' hl h)
  · intro m m' f hneg hok
    unfold Ledger.applyFill at hok
    rw [if_pos hneg] at hok
    exact absurd hok (by simp)

/-- Witness for C3: depositing 5 then spending 3 of an asset keeps every balance
non-negative. -/
theorem C3_balance_never_negative_witness :
    Ledger.EntriesNonNeg ⟨[("SOL", 2)]⟩
    ∧ Ledger.applyFills ⟨[("SOL", 2)]⟩ [⟨"SOL", 5⟩, ⟨"SOL", -3⟩]
        = Except.ok ⟨[("SOL", 4)]⟩
    ∧ ∀ asset : String,
        0 ≤ Ledger.getAvailableBalance ⟨[("SOL", 4)]⟩ asset := by
  have h1 : Ledger.EntriesNonNeg ⟨[("SOL", 2)]⟩ := by
    intro e he
    simp only [List.mem_singleton] at he
    rw [he]
    norm_num
  have h2 : Ledger.applyFills ⟨[("SOL", 2)]⟩ [⟨"SOL", 5⟩, ⟨"SOL", -3⟩]
      = Except.ok ⟨[("SOL", 4)]⟩ := by
    norm_num [Ledger.applyFills, Ledger.applyFill, Ledger.getAvailableBalance,
      lookupBalance, updateBalance]
  exact ⟨h1, h2,
    (C3_balance_never_negative ⟨[("SOL", 2)]⟩ ⟨[("SOL", 4)]⟩
      [⟨"SOL", 5⟩, ⟨"SOL", -3⟩] h1 h2).1⟩

end Ledger

section Executor

/-- Modelled from the spec: OrderRecord statuses. -/
inductive OrderStatus
  | Pending
  | Submitted
  | Filled
  | PartiallyFilled
  | Rejected
  | Cancelled
  | Expired
deriving DecidableEq, Repr

/-- Modelled from the spec: an intent as seen by OrderExecutor.submit; `id` is the
intent identity used for the idempotency key, the other fields are payload. -/
structure SubmitIntent where
  id : String
  symbol : String
  side : Side
  quantity : ℚ
deriving DecidableEq, Repr

/-- Modelled from the spec: the deterministic idempotency key derived from the
intent identity and the time bucket. -/
def idempotencyKey (intentId : String) (timeBucket : Nat) : String :=
  intentId ++ ":" ++ toString timeBucket

/-- Modelled from the spec: an OrderRecord held by the gateway. -/
structure OrderRecord where
  key : String
  intentId : String
  status : OrderStatus
deriving DecidableEq, Repr

/-- Modelled from the spec: the set of records the gateway has accepted. -/
structure GatewayState where
  accepted : List OrderRecord
deriving DecidableEq, Repr

/-- Look up an already accepted record by idempotency key. -/
def GatewayState.findByKey (g : GatewayState) (key : String) : Option OrderRecord :=
  g.accepted.find? fun r => r.key == key

/-- Number of accepted records carrying a given idempotency key. -/
def GatewayState.countKey (g : GatewayState) (key : String) : Nat :=
  (g.accepted.filter fun r => r.key == key).length

/-- Modelled from the spec: OrderExecutor.submit. The idempotency key is computed
from (intent identity, time bucket); a re-submission whose key the gateway already
accepted is recognized as a duplicate and returns the existing record unchanged. -/
def submit (g : GatewayState) (intent : SubmitIntent) (bucket : Nat) :
    GatewayState × OrderRecord :=
  match g.findByKey (idempotencyKey intent.id bucket) with
  | some r => (g, r)
  | none =>
    let r : OrderRecord :=
      { key := idempotencyKey intent.id bucket, intentId := intent.id,
        status := OrderStatus.Submitted }
    (⟨r :: g.accepted⟩, r)

theorem submit_of_found (g : GatewayState) (i : SubmitIntent) (bucket : Nat)
    (r : OrderRecord) (hf : g.findByKey (idempotencyKey i.id bucket) = some r) :
    submit g i bucket = (g, r) := by
  unfold submit
  rw [hf]

theorem findByKey_after_submit (g : GatewayState) (intent : SubmitIntent)
    (bucket : Nat) :
    ((submit g intent bucket).1.findByKey (idempotencyKey intent.id bucket)).isSome
      = true := by
  unfold submit
  cases hf : g.findByKey (idempotencyKey intent.id bucket) with
  | some r => simp [hf]
  | none => simp [GatewayState.findByKey, List.find?_cons]

/-- Claim C6: the idempotency key depends only on the intent identity and the time
bucket, and submitting the same intent twice in the same bucket leaves the set of
accepted records exactly as after the first submission — the gateway never holds a
second accepted record for the key. -/
theorem C6_idempotent_submit (g : GatewayState) (i₁ i₂ : SubmitIntent)
    (bucket : Nat) (hid : i₁.id = i₂.id) :
    idempotencyKey i₁.id bucket = idempotencyKey i₂.id bucket
    ∧ (submit (submit g i₁ bucket).1 i₂ bucket).1 = (submit g i₁ bucket).1
    ∧ (submit (submit g i₁ bucket).1 i₂ bucket).1.countKey
          (idempotencyKey i₁.id bucket)
        = (submit g i₁ bucket).1.countKey (idempotencyKey i₁.id bucket) := by
  have hkey : idempotencyKey i₁.id bucket = idempotencyKey i₂.id bucket := by
    rw [hid]
  have hstate : (submit (submit g i₁ bucket).1 i₂ bucket).1 = (submit g i₁ bucket).1 := by
    have hsome := findByKey_after_submit g i₁ bucket
    rw [hkey] at hsome
    obtain ⟨r, hf⟩ := Option.isSome_iff_exists.mp hsome
    rw [submit_of_found (submit g i₁ bucket).1 i₂ bucket r hf]
  exact ⟨hkey, hstate, by rw [hstate]⟩

/-- Witness for C6: a double submission of one concrete intent adds one record in
total. -/
theorem C6_idempotent_submit_witness :
    (SubmitIntent.id ⟨"intent-1", "SOL", Side.buy, 1⟩
        = SubmitIntent.id ⟨"intent-1", "XRP", Side.sell, 2⟩)
    ∧ (submit (submit ⟨[]⟩ ⟨"intent-1", "SOL", Side.buy, 1⟩ 7).1
          ⟨"intent-1", "XRP", Side.sell, 2⟩ 7).1
        = (submit (⟨[]⟩ : GatewayState) ⟨"intent-1", "SOL", Side.buy, 1⟩ 7).1 :=
  ⟨rfl, (C6_idempotent_submit ⟨[]⟩ ⟨"intent-1", "SOL", Side.buy, 1⟩
      ⟨"intent-1", "XRP", Side.sell, 2⟩ 7 rfl).2.1⟩

end Executor

section Strategy

/-- Modelled from the spec: the immutable strategy configuration — symbol-to-class
mapping, DCA threshold and fraction, take-profit fraction and profit-multiple
ladder, Correction size-reduction factor, and the Stable recycling target. -/
structure EngineConfig where
  classOf : String → AssetClass
  dcaThreshold : ℚ
  dcaFraction : ℚ
  takeProfitFraction : ℚ
  profitMultiples : List ℚ
  correctionFactor : ℚ
  stableSymbol : String

/-- Modelled from the spec: per-asset strategy state — the position (quantity and
average cost basis), the highest profit multiple already fired, and whether the DCA
trigger is armed (re-armed only after the drawdown recovers below the threshold). -/
structure AssetState where
  symbol : String
  quantity : ℚ
  costBasis : ℚ
  lastFiredMultiple : ℚ
  dcaArmed : Bool
deriving DecidableEq, Repr

/-- Modelled from the spec: at tier Correction all newly computed sizes are reduced
by the configured factor; other tiers leave sizes unchanged. -/
def gateSize (tier : MarketRegime) (correctionFactor q : ℚ) : ℚ :=
  if tier = MarketRegime.Correction then correctionFactor * q else q

/-- Modelled from the spec: insufficient balance downgrades an intent to the
maximum affordable size; a non-positive affordable size drops the intent. -/
def clampAffordable (avail q : ℚ) : Option ℚ :=
  if 0 < min q avail then some (min q avail) else none

/-- Modelled from the spec: LongTermHold rules — never sell; on a qualifying dip
with the DCA trigger armed, buy a fixed fraction of the available quote balance
(gated by tier, clamped to the affordable size); DCA is suspended at SevereCrash
and the trigger re-arms only once the drawdown falls back below the threshold. -/
def longTermRules (cfg : EngineConfig) (tier : MarketRegime)
    (quoteAvail drawdown : ℚ) (st : AssetState) : List TradeIntent × AssetState :=
  if tier = MarketRegime.SevereCrash then ([], st)
  else if cfg.dcaThreshold ≤ drawdown then
    if st.dcaArmed then
      match clampAffordable quoteAvail
          (gateSize tier cfg.correctionFactor (cfg.dcaFraction * quoteAvail)) with
      | some size =>
        ([{ symbol := st.symbol, side := Side.buy, quantity := size,
            reason := ReasonCode.DCA }], { st with dcaArmed := false })
      | none => ([], { st with dcaArmed := false })
    else ([], st)
  else ([], { st with dcaArmed := true })

/-- Modelled from the spec: the take-profit ladder walk for a HighRiskVolatile
position. Each configured multiple strictly above the last fired one and reached by
the price fires exactly once, in ladder order, selling the configured fraction of
the quantity remaining after the prior partial sell of the same batch. -/
def takeProfitBatch (frac price : ℚ) :
    AssetState → List ℚ → List TradeIntent × AssetState
  | st, [] => ([], st)
  | st, m :: rest =>
    if st.lastFiredMultiple < m ∧ m * st.costBasis ≤ price then
      let out := takeProfitBatch frac price
        { st with quantity := st.quantity - frac * st.quantity,
                  lastFiredMultiple := m } rest
      ({ symbol := st.symbol, side := Side.sell, quantity := frac * st.quantity,
         reason := ReasonCode.takeProfit } :: out.1, out.2)
    else
      takeProfitBatch frac price st rest

/-- Modelled from the spec: HighRiskVolatile rules — at Crash or SevereCrash all
buys are suppressed and the position is fully liquidated into Stable (one
deleverage sell); otherwise walk the take-profit ladder (sizes gated at
Correction) and recycle realized proceeds into a Stable buy intent. -/
def highRiskRules (cfg : EngineConfig) (tier : MarketRegime) (price : ℚ)
    (st : AssetState) : List TradeIntent × AssetState :=
  if tier = MarketRegime.Crash ∨ tier = MarketRegime.SevereCrash then
    ((if 0 < st.quantity then
        [{ symbol := st.symbol, side := Side.sell, quantity := st.quantity,
           reason := ReasonCode.crashDeleverage }]
      else []), { st with quantity := 0 })
  else
    let out := takeProfitBatch (gateSize tier cfg.correctionFactor cfg.takeProfitFraction)
      price st cfg.profitMultiples
    let proceeds := (st.quantity - out.2.quantity) * price
    (out.1 ++
      (if 0 < proceeds then
        [{ symbol := cfg.stableSymbol, side := Side.buy, quantity := proceeds,
           reason := ReasonCode.takeProfit }]
      else []), out.2)

/-- Modelled from the spec: one StrategyEngine evaluation — for each tracked asset
the rule set selected by its AssetClass produces the trade intents; Stable assets
produce none. -/
def strategyStep (cfg : EngineConfig) (tier : MarketRegime)
    (quoteAvail drawdown : ℚ) (priceOf : String → ℚ)
    (assets : List AssetState) : List TradeIntent :=
  assets.flatMap fun st =>
    match cfg.classOf st.symbol with
    | AssetClass.LongTermHold => (longTermRules cfg tier quoteAvail drawdown st).1
    | AssetClass.HighRiskVolatile => (highRiskRules cfg tier (priceOf st.symbol) st).1
    | AssetClass.Stable => []

/-- Total quantity held across assets classified LongTermHold. -/
def ltHoldQty (cfg : EngineConfig) (assets : List AssetState) : ℚ :=
  ((assets.filter fun st => decide (cfg.classOf st.symbol = AssetClass.LongTermHold)).map
    fun st => st.quantity).sum

/-- Applying an executed intent's fill to the tracked asset quantities. -/
def applyIntentFill (intent : TradeIntent) (assets : List AssetState) :
    List AssetState :=
  assets.map fun st =>
    if st.symbol = intent.symbol then
      match intent.side with
      | Side.buy => { st with quantity := st.quantity + intent.quantity }
      | Side.sell => { st with quantity := st.quantity - intent.quantity }
      | Side.hold => st
    else st

/-- Modelled from the spec: the two kinds of ledger mutation — a fill from an
executed engine intent, and an explicit cold-storage transfer out. -/
inductive LedgerOp
  | engineFill (intent : TradeIntent)
  | coldStorageOut (symbol : String) (amount : ℚ)

/-- Applying one ledger operation to the tracked asset quantities. -/
def applyLedgerOp (op : LedgerOp) (assets : List AssetState) : List AssetState :=
  match op with
  | LedgerOp.engineFill intent => applyIntentFill intent assets
  | LedgerOp.coldStorageOut sym amt =>
    assets.map fun st =>
      if st.symbol = sym then { st with quantity := st.quantity - amt } else st

theorem takeProfitBatch_mem (frac price : ℚ) :
    ∀ (ladder : List ℚ) (st : AssetState) (i : TradeIntent),
      i ∈ (takeProfitBatch frac price st ladder).1 →
      i.symbol = st.symbol ∧ i.side = Side.sell := by
  intro ladder
  induction ladder with
  | nil => intro st i hi; simp [takeProfitBatch] at hi
  | cons m rest ih =>
    intro st i hi
    simp only [takeProfitBatch] at hi
    split at hi
    · rcases List.mem_cons.mp hi with h | h
      · rw [h]
        exact ⟨rfl, rfl⟩
      · simpa using ih _ i h
    · exact ih st i hi

theorem longTermRules_mem (cfg : EngineConfig) (tier : MarketRegime)
    (quoteAvail drawdown : ℚ) (st : AssetState) :
    ∀ i ∈ (longTermRules cfg tier quoteAvail drawdown st).1,
      i.side = Side.buy ∧ i.symbol = st.symbol := by
  intro i hi
  unfold longTermRules at hi
  split at hi
  · simp at hi
  · split at hi
    · split at hi
      · split at hi
        · simp only [List.mem_singleton] at hi
          rw [hi]
          exact ⟨rfl, rfl⟩
        · simp at hi
      · simp at hi
    · simp at hi

theorem highRiskRules_sell (cfg : EngineConfig) (tier : MarketRegime)
    (price : ℚ) (st : AssetState) :
    ∀ i ∈ (highRiskRules cfg tier price st).1,
      i.side = Side.sell → i.symbol = st.symbol := by
  intro i hi hside
  simp only [highRiskRules] at hi
  split at hi
  · split at hi
    · simp only [List.mem_singleton] at hi
      rw [hi]
    · simp at hi
  · rcases List.mem_append.mp hi with h | h
    · exact (takeProfitBatch_mem _ _ _ _ i h).1
    · split at h
      · simp only [List.mem_singleton] at h
        rw [h] at hside
        exact absurd hside (by simp)
      · simp at h

theorem strategyStep_sell_class (cfg : EngineConfig) (tier : MarketRegime)
    (quoteAvail drawdown : ℚ) (priceOf : String → ℚ) (assets : List AssetState) :
    ∀ i ∈ strategyStep cfg tier quoteAvail drawdown priceOf assets,
      i.side = Side.sell → cfg.classOf i.symbol = AssetClass.HighRiskVolatile := by
  intro i hi hside
  rcases List.mem_flatMap.mp hi with ⟨st, hst, hmem⟩
  cases hcl : cfg.classOf st.symbol with
  | LongTermHold =>
    rw [hcl] at hmem
    have := (longTermRules_mem cfg tier quoteAvail drawdown st i hmem).1
    rw [this] at hside
    exact absurd hside (by simp)
  | HighRiskVolatile =>
    rw [hcl] at hmem
    have hsym := highRiskRules_sell cfg tier (priceOf st.symbol) st i hmem hside
    rw [hsym, hcl]
  | Stable =>
    rw [hcl] at hmem
    simp at hmem

theorem clampAffordable_pos (avail q s : ℚ) (h : clampAffordable avail q = some s) :
    0 < s := by
  unfold clampAffordable at h
  split at h
  · cases h
    assumption
  · exact absurd h (by simp)

theorem longTermRules_pos (cfg : EngineConfig) (tier : MarketRegime)
    (quoteAvail drawdown : ℚ) (st : AssetState) :
    ∀ i ∈ (longTermRules cfg tier quoteAvail drawdown st).1, 0 < i.quantity := by
  intro i hi
  unfold longTermRules at hi
  split at hi
  · simp at hi
  · split at hi
    · split at hi
      · split at hi
        · rename_i s heq
          simp only [List.mem_singleton] at hi
          rw [hi]
          exact clampAffordable_pos _ _ _ heq
        · simp at hi
      · simp at hi
    · simp at hi

theorem highRiskRules_buy_pos (cfg : EngineConfig) (tier : MarketRegime)
    (price : ℚ) (st : AssetState) :
    ∀ i ∈ (highRiskRules cfg tier price st).1, i.side = Side.buy → 0 < i.quantity := by
  intro i hi hside
  simp only [highRiskRules] at hi
  split at hi
  · split at hi
    · simp only [List.mem_singleton] at hi
      rw [hi] at hside
      exact absurd hside (by simp)
    · simp at hi
  · rcases List.mem_append.mp hi with h | h
    · have hsell := (takeProfitBatch_mem _ _ _ _ i h).2
      rw [hsell] at hside
      exact absurd hside (by simp)
    · split at h
      · rename_i hpos
        simp only [List.mem_singleton] at h
        rw [h]
        exact hpos
      · simp at h

theorem strategyStep_buy_pos (cfg : EngineConfig) (tier : MarketRegime)
    (quoteAvail drawdown : ℚ) (priceOf : String → ℚ) (assets : List AssetState) :
    ∀ i ∈ strategyStep cfg tier quoteAvail drawdown priceOf assets,
      i.side = Side.buy → 0 < i.quantity := by
  intro i hi hside
  rcases List.mem_flatMap.mp hi with ⟨st, _, hmem⟩
  cases hcl : cfg.classOf st.symbol with
  | LongTermHold =>
    rw [hcl] at hmem
    exact longTermRules_pos cfg tier quoteAvail drawdown st i hmem
  | HighRiskVolatile =>
    rw [hcl] at hmem
    exact highRiskRules_buy_pos cfg tier (priceOf st.symbol) st i hmem hside
  | Stable =>
    rw [hcl] at hmem
    simp at hmem

theorem ltHoldQty_map_le (cfg : EngineConfig) (f : AssetState → AssetState)
    (hsym : ∀ st, (f st).symbol = st.symbol)
    (hq : ∀ st, st.quantity ≤ (f st).quantity) :
    ∀ assets : List AssetState, ltHoldQty cfg assets ≤ ltHoldQty cfg (assets.map f) := by
  intro assets
  induction assets with
  | nil => exact le_refl _
  | cons st rest ih =>
    simp only [ltHoldQty, List.map_cons, List.filter_cons, hsym st] at *
    by_cases hp : cfg.classOf st.symbol = AssetClass.LongTermHold
    · rw [if_pos (decide_eq_true hp), if_pos (decide_eq_true hp),
        List.map_cons, List.map_cons, List.sum_cons, List.sum_cons]
      exact add_le_add (hq st) ih
    · rw [if_neg (by simpa using hp), if_neg (by simpa using hp)]
      exact ih

theorem ltHoldQty_map_eq (cfg : EngineConfig) (f : AssetState → AssetState)
    (hsym : ∀ st, (f st).symbol = st.symbol)
    (hq : ∀ st, cfg.classOf st.symbol = AssetClass.LongTermHold →
      (f st).quantity = st.quantity) :
    ∀ assets : List AssetState, ltHoldQty cfg (assets.map f) = ltHoldQty cfg assets := by
  intro assets
  induction assets with
  | nil => rfl
  | cons st rest ih =>
    simp only [ltHoldQty, List.map_cons, List.filter_cons, hsym st] at *
    by_cases hp : cfg.classOf st.symbol = AssetClass.LongTermHold
    · rw [if_pos (decide_eq_true hp), if_pos (decide_eq_true hp),
        List.map_cons, List.map_cons, List.sum_cons, List.sum_cons, hq st hp, ih]
    · rw [if_neg (by simpa using hp), if_neg (by simpa using hp)]
      exact ih

/-- Claim C1: the StrategyEngine never emits a sell intent for a LongTermHold asset,
in any tier and for any inputs; consequently applying any engine-generated fill
never decreases the total LongTermHold quantity (only an explicit cold-storage
transfer out can). -/
theorem C1_never_sell_longtermhold (cfg : EngineConfig) (tier : MarketRegime)
    (quoteAvail drawdown : ℚ) (priceOf : String → ℚ) (assets : List AssetState) :
    (∀ i ∈ strategyStep cfg tier quoteAvail drawdown priceOf assets,
        cfg.classOf i.symbol = AssetClass.LongTermHold → i.side ≠ Side.sell)
    ∧ ∀ i ∈ strategyStep cfg tier quoteAvail drawdown priceOf assets,
        ltHoldQty cfg assets
          ≤ ltHoldQty cfg (applyLedgerOp (LedgerOp.engineFill i) assets) := by
  constructor
  · intro i hi hclass hside
    have := strategyStep_sell_class cfg tier quoteAvail drawdown priceOf assets i hi hside
    rw [hclass] at this
    exact absurd this (by simp)
  · intro i hi
    simp only [applyLedgerOp, applyIntentFill]
    cases hside : i.side with
    | buy =>
      have hq : 0 < i.quantity :=
        strategyStep_buy_pos cfg tier quoteAvail drawdown priceOf assets i hi hside
      apply ltHoldQty_map_le
      · intro st
        split <;> rfl
      · intro st
        split
        · exact le_add_of_nonneg_right (le_of_lt hq)
        · exact le_refl _
    | sell =>
      have hcl := strategyStep_sell_class cfg tier quoteAvail drawdown priceOf assets i hi
        (by rw [hside])
      refine le_of_eq (ltHoldQty_map_eq cfg _ ?_ ?_ assets).symm
      · intro st
        split <;> rfl
      · intro st hst
        split
        · rename_i hsymeq
          rw [hsymeq, hcl] at hst
          exact absurd hst (by simp)
        · rfl
    | hold =>
      refine le_of_eq (ltHoldQty_map_eq cfg _ ?_ ?_ assets).symm
      · intro st
        split <;> rfl
      · intro st _
        split <;> rfl

theorem takeProfitBatch_length (frac price : ℚ) :
    ∀ (ladder : List ℚ) (st : AssetState), List.Pairwise (· < ·) ladder →
      (takeProfitBatch frac price st ladder).1.length
        = (ladder.filter fun m =>
            decide (st.lastFiredMultiple < m ∧ m * st.costBasis ≤ price)).length := by
  intro ladder
  induction ladder with
  | nil => intro st _; rfl
  | cons m rest ih =>
    intro st h
    have hlt : ∀ x ∈ rest, m < x := (List.pairwise_cons.mp h).1
    have hrest : List.Pairwise (· < ·) rest := (List.pairwise_cons.mp h).2
    by_cases hc : st.lastFiredMultiple < m ∧ m * st.costBasis ≤ price
    · simp only [takeProfitBatch, if_pos hc, List.filter_cons,
        if_pos (decide_eq_true hc), List.length_cons]
      congr 1
      rw [ih _ hrest]
      congr 1
      apply List.filter_congr
      intro x hx
      have h1 : m < x := hlt x hx
      have h2 : st.lastFiredMultiple < x := lt_trans hc.1 h1
      simp [h1, h2]
    · rw [List.filter_cons,
        if_neg (by simp [hc] :
          ¬(decide (st.lastFiredMultiple < m ∧ m * st.costBasis ≤ price) = true))]
      simp only [takeProfitBatch, if_neg hc]
      exact ih st hrest

/-- Claim C4: for a strictly ascending profit-multiple ladder, one tick fires
exactly one take-profit sell per newly crossed multiple; with basis 100 and ladder
[2, 3, 5], a tick to 320 emits exactly the 2x and 3x sells in ascending order, each
sized against the quantity remaining after the prior one, and a later tick at 350
(above 3x, below 5x) emits nothing. -/
theorem C4_profit_multiple_ladder (frac price : ℚ) (ladder : List ℚ)
    (st : AssetState) (h : List.Pairwise (· < ·) ladder) :
    ((takeProfitBatch frac price st ladder).1.length
      = (ladder.filter fun m =>
          decide (st.lastFiredMultiple < m ∧ m * st.costBasis ≤ price)).length)
    ∧ ∀ f q : ℚ,
        takeProfitBatch f 320 ⟨"MEME", q, 100, 1, true⟩ [2, 3, 5]
          = ([⟨"MEME", Side.sell, f * q, ReasonCode.takeProfit⟩,
              ⟨"MEME", Side.sell, f * (q - f * q), ReasonCode.takeProfit⟩],
             ⟨"MEME", q - f * q - f * (q - f * q), 100, 3, true⟩)
        ∧ takeProfitBatch f 350 ⟨"MEME", q - f * q - f * (q - f * q), 100, 3, true⟩
            [2, 3, 5]
          = ([], ⟨"MEME", q - f * q - f * (q - f * q), 100, 3, true⟩) := by
  constructor
  · exact takeProfitBatch_length frac price ladder st h
  · intro f q
    constructor
    · norm_num [takeProfitBatch]
    · norm_num [takeProfitBatch]

/-- Witness for C4 at the spec's example ladder [2, 3, 5]: a position with basis
100 and quantity 10, tick to 320 with fraction 1/2 — the batch has exactly two
sells. -/
theorem C4_profit_multiple_ladder_witness :
    List.Pairwise (· < ·) ([2, 3, 5] : List ℚ)
    ∧ (takeProfitBatch (1/2) 320 ⟨"MEME", 10, 100, 1, true⟩ [2, 3, 5]).1.length
        = (([2, 3, 5] : List ℚ).filter fun m =>
            decide ((1:ℚ) < m ∧ m * 100 ≤ 320)).length := by
  have hp : List.Pairwise (· < ·) ([2, 3, 5] : List ℚ) := by
    norm_num [List.pairwise_cons]
  exact ⟨hp,
    (C4_profit_multiple_ladder (1/2) 320 [2, 3, 5] ⟨"MEME", 10, 100, 1, true⟩ hp).1⟩

/-- Example configuration: XRP is LongTermHold, MEME is HighRiskVolatile, anything
else Stable; spec example values for the thresholds. -/
def cfgEx : EngineConfig :=
  { classOf := fun s =>
      if s = "XRP" then AssetClass.LongTermHold
      else if s = "MEME" then AssetClass.HighRiskVolatile
      else AssetClass.Stable,
    dcaThreshold := 1/10,
    dcaFraction := 1/10,
    takeProfitFraction := 1/2,
    profitMultiples := [2, 3, 5],
    correctionFactor := 1/2,
    stableSymbol := "USDC" }

/-- Example LongTermHold asset state for the witness. -/
def stEx : AssetState := ⟨"XRP", 50, 1, 0, true⟩

/-- Witness for C1 at the spec's DCA scenario: quote balance 1000, DCA fraction
0.1, qualifying dip — the engine emits a buy of 100 for the LongTermHold asset and
applying it does not decrease the LongTermHold total. -/
theorem C1_never_sell_longtermhold_witness :
    (⟨"XRP", Side.buy, 100, ReasonCode.DCA⟩ : TradeIntent)
        ∈ strategyStep cfgEx MarketRegime.Normal 1000 (2/10) (fun _ => 0) [stEx]
    ∧ TradeIntent.side ⟨"XRP", Side.buy, 100, ReasonCode.DCA⟩ ≠ Side.sell
    ∧ ltHoldQty cfgEx [stEx]
        ≤ ltHoldQty cfgEx (applyLedgerOp
            (LedgerOp.engineFill ⟨"XRP", Side.buy, 100, ReasonCode.DCA⟩) [stEx]) := by
  have hne1 : MarketRegime.Normal ≠ MarketRegime.SevereCrash := by decide
  have hne2 : MarketRegime.Normal ≠ MarketRegime.Correction := by decide
  have hmem : (⟨"XRP", Side.buy, 100, ReasonCode.DCA⟩ : TradeIntent)
      ∈ strategyStep cfgEx MarketRegime.Normal 1000 (2/10) (fun _ => 0) [stEx] := by
    norm_num [strategyStep, cfgEx, stEx, longTermRules, clampAffordable, gateSize,
      min_def, hne1, hne2]
  refine ⟨hmem, ?_, ?_⟩
  · exact (C1_never_sell_longtermhold cfgEx MarketRegime.Normal 1000 (2/10)
      (fun _ => 0) [stEx]).1 _ hmem (by norm_num [cfgEx])
  · exact (C1_never_sell_longtermhold cfgEx MarketRegime.Normal 1000 (2/10)
      (fun _ => 0) [stEx]).2 _ hmem

end Strategy

section Dashboard

/-- Embedded from the TradingActivity component (src/unnamed/part_001): JavaScript
String.startsWith with a one-character prefix, over strings as character lists. -/
def jsStartsWith (s : List Char) (c : Char) : Bool :=
  match s with
  | [] => false
  | a :: _ => a == c

/-- Embedded from the TradingActivity component (src/unnamed/part_001), the sx color
of the profit/loss cell: profit starting with plus is colored success.main, starting
with minus error.main, anything else text.secondary. -/
def profitCellColor (profit : List Char) : String :=
  if jsStartsWith profit '+' then "success.main"
  else if jsStartsWith profit '-' then "error.main"
  else "text.secondary"

/-- Specification-side restatement for C8: the color as a function of only the
first character of the profit string. -/
def firstCharColorSpec : Option Char → String
  | some c =>
    if c = '+' then "success.main"
    else if c = '-' then "error.main"
    else "text.secondary"
  | none => "text.secondary"

/-- The three palette families used by the StatusChip styled components. -/
inductive PaletteFamily
  | success
  | warning
  | error
deriving DecidableEq, Repr

/-- Embedded from the StatusChip of TradingActivity (src/unnamed/part_001):
completed maps to the success palette, pending to warning, everything else falls
through to error. -/
def tradingStatusChipPalette (status : List Char) : PaletteFamily :=
  if status = "completed".data then PaletteFamily.success
  else if status = "pending".data then PaletteFamily.warning
  else PaletteFamily.error

/-- Embedded from the StatusChip of BotStatus
(src/src/dashboard/src/components/BotStatus.jsx): active maps to the success
palette, paused to warning, everything else falls through to error. -/
def botStatusChipPalette (status : List Char) : PaletteFamily :=
  if status = "active".data then PaletteFamily.success
  else if status = "paused".data then PaletteFamily.warning
  else PaletteFamily.error

/-- Embedded from BotStatus.jsx: the hard-coded botStatus example object (the
fields the rendered controls read). -/
structure BotStatusData where
  isRunning : Bool
  status : List Char
  tradingMode : List Char
  riskLevel : List Char
  balance : List Char
deriving DecidableEq, Repr

/-- The hard-coded example data of BotStatus.jsx. -/
def botStatusData : BotStatusData :=
  { isRunning := true, status := "active".data, tradingMode := "auto".data,
    riskLevel := "medium".data, balance := "25.5 SOL".data }

/-- The rendered dashboard state reachable by the dashboard's control handlers. -/
structure DashboardState where
  bot : BotStatusData
deriving DecidableEq, Repr

/-- The two kinds of control activation the dashboard wires up: the BotStatus
Enable Trading switch, and a QuickActions button with its action string. -/
inductive DashboardEvent
  | toggleTradingSwitch
  | quickAction (action : List Char)

/-- Embedded from BotStatus.jsx (the switch onChange is an empty arrow function)
and QuickActions.jsx handleAction (a console.log of `Action clicked: ` followed by
the action, and nothing else): the handler returns the unchanged state together
with the emitted log lines. -/
def dashboardHandle (s : DashboardState) (e : DashboardEvent) :
    DashboardState × List (List Char) :=
  match e with
  | DashboardEvent.toggleTradingSwitch => (s, [])
  | DashboardEvent.quickAction action => (s, ["Action clicked: ".data ++ action])

/-- Claim C8: the profit/loss cell color is a total function of only the first
character of the profit string — success.main for a leading plus, error.main for a
leading minus, text.secondary otherwise (including the empty string and Pending). -/
theorem C8_profit_color_first_char :
    (∀ s : List Char, profitCellColor s = firstCharColorSpec s.head?)
    ∧ profitCellColor "Pending".data = "text.secondary"
    ∧ profitCellColor [] = "text.secondary"
    ∧ profitCellColor "+$12.50".data = "success.main"
    ∧ profitCellColor "-$5.20".data = "error.main" := by
  refine ⟨?_, by decide, by decide, by decide, by decide⟩
  intro s
  cases s with
  | nil => rfl
  | cons a rest =>
    simp only [profitCellColor, jsStartsWith, firstCharColorSpec, List.head?_cons,
      beq_iff_eq]

/-- Claim C9: the StatusChip styling is total over all status strings — completed
(respectively active) maps to the success palette, pending (respectively paused) to
warning, and every other status string, including the empty one, falls through to
the error palette. -/
theorem C9_status_chip_total (s : List Char) :
    (s ≠ "completed".data → s ≠ "pending".data →
        tradingStatusChipPalette s = PaletteFamily.error)
    ∧ (s ≠ "active".data → s ≠ "paused".data →
        botStatusChipPalette s = PaletteFamily.error)
    ∧ tradingStatusChipPalette "completed".data = PaletteFamily.success
    ∧ tradingStatusChipPalette "pending".data = PaletteFamily.warning
    ∧ botStatusChipPalette "active".data = PaletteFamily.success
    ∧ botStatusChipPalette "paused".data = PaletteFamily.warning
    ∧ tradingStatusChipPalette [] = PaletteFamily.error
    ∧ botStatusChipPalette [] = PaletteFamily.error := by
  refine ⟨?_, ?_, by decide, by decide, by decide, by decide, by decide, by decide⟩
  · intro h1 h2
    simp [tradingStatusChipPalette, h1, h2]
  · intro h1 h2
    simp [botStatusChipPalette, h1, h2]

/-- Witness for C9 at an unrecognized status string. -/
theorem C9_status_chip_total_witness :
    ("failed".data ≠ "completed".data ∧ "failed".data ≠ "pending".data)
    ∧ tradingStatusChipPalette "failed".data = PaletteFamily.error :=
  ⟨⟨by decide, by decide⟩,
   (C9_status_chip_total "failed".data).1 (by decide) (by decide)⟩

/-- Claim C10: activating any dashboard control leaves all rendered dashboard state
unchanged — the Enable Trading switch handler is a no-op (isRunning keeps its
hard-coded value) and QuickActions.handleAction only emits the log line
`Action clicked: ` followed by the action. -/
theorem C10_controls_do_not_mutate :
    (∀ (s : DashboardState) (e : DashboardEvent), (dashboardHandle s e).1 = s)
    ∧ (∀ (s : DashboardState) (a : List Char),
        (dashboardHandle s (DashboardEvent.quickAction a)).2
          = ["Action clicked: ".data ++ a])
    ∧ (dashboardHandle ⟨botStatusData⟩ DashboardEvent.toggleTradingSwitch).1.bot.isRunning
        = true := by
  refine ⟨?_, fun s a => rfl, by decide⟩
  intro s e
  cases e with
  | toggleTradingSwitch => rfl
  | quickAction a => rfl

end Dashboard

end CryptoPM
